import Mathlib

/-!
Verification of the interstate replication core, shallowly embedded from the
Go source: the binary wire codec (messages.go), the leader write path
(leader.go), the follower write path, and the append-only log datastore
(appendonly/datastore.go).  Machine integers are modelled as `Nat` with the
relevant `% 2 ^ 64` (or `% 2 ^ 16`) reductions written out where the Go code
can overflow; byte slices are `List Nat`; fallible calls return `Except` or a
`GoResult` that also records runtime panics (slice bounds violations).
-/

namespace Interstate

/-- 2 ^ 64, the modulus of Go's `uint64` arithmetic. -/
def U64 : Nat := 2 ^ 64

/-- Big-endian value of a byte list, as `binary.BigEndian.Uint16 / Uint64`
compute it: each entry is one byte, most significant first. -/
def fromBytesBE (bs : List Nat) : Nat :=
  bs.foldl (fun acc b => acc * 256 + b) 0

/-- Big-endian encoding of `v` into exactly `k` bytes, keeping the low `k`
bytes as Go's `binary` package does for fixed-width integers. -/
def toBytesBE : Nat → Nat → List Nat
  | 0, _ => []
  | k + 1, v => toBytesBE k (v / 256) ++ [v % 256]

theorem toBytesBE_length (k v : Nat) : (toBytesBE k v).length = k := by
  induction k generalizing v with
  | zero => rfl
  | succ k ih => simp [toBytesBE, ih]

theorem fromBytesBE_append_singleton (bs : List Nat) (b : Nat) :
    fromBytesBE (bs ++ [b]) = fromBytesBE bs * 256 + b := by
  simp [fromBytesBE, List.foldl_append]

theorem fromBytesBE_toBytesBE (k v : Nat) :
    fromBytesBE (toBytesBE k v) = v % 256 ^ k := by
  induction k generalizing v with
  | zero => simp [toBytesBE, fromBytesBE, Nat.mod_one]
  | succ k ih =>
    rw [toBytesBE, fromBytesBE_append_singleton, ih, pow_succ', Nat.mod_mul]
    omega

theorem fromBytesBE_toBytesBE_of_lt (k v : Nat) (h : v < 256 ^ k) :
    fromBytesBE (toBytesBE k v) = v := by
  rw [fromBytesBE_toBytesBE, Nat.mod_eq_of_lt h]

/-- Outcome of a Go call: normal return, returned error, or a runtime panic
(out-of-range slice index). -/
inductive GoResult (α : Type) where
  | ok (a : α)
  | error
  | panic
deriving DecidableEq

/-- The big-endian `uint16` read by `GetMessageType` from the first two bytes
of a buffer (messages.go).  The `data[:2]` slice inside `GetMessageType`
panics when the buffer is shorter than two bytes; callers of this definition
model that check explicitly. -/
def messageTypeOf (data : List Nat) : Nat := fromBytesBE (data.take 2)

/-- `PrependRequestLength` (messages.go): 8-byte big-endian length prefix. -/
def PrependRequestLength (data : List Nat) : List Nat :=
  toBytesBE 8 data.length ++ data

/-- `UpdateRequest` (messages.go): tag 2, fields `RequestID`, `Version`
(both `uint64`) and the opaque `Data` bytes. -/
structure UpdateRequest where
  RequestID : Nat
  Version : Nat
  Data : List Nat
deriving DecidableEq

/-- `UpdateRequest.Encode`: 2-byte tag 2, then `RequestID`, `Version`
big-endian, then the data bytes. -/
def UpdateRequest.Encode (r : UpdateRequest) : List Nat :=
  toBytesBE 2 2 ++ toBytesBE 8 r.RequestID ++ toBytesBE 8 r.Version ++ r.Data

/-- `UpdateRequest.Decode`.  The buffers handed to the decoders are framed
reads of exact capacity (`make([]byte, length)`), so a Go slice expression
`body[lo:hi]` panics exactly when `hi` exceeds the remaining length:
`data[:2]` needs 2 bytes, `body[:8]` needs 10, `body[8:16]` needs 18. -/
def UpdateRequest.Decode (data : List Nat) : GoResult UpdateRequest :=
  if data.length < 2 then .panic
  else if messageTypeOf data ≠ 2 then .error
  else if data.length < 10 then .panic
  else if data.length < 18 then .panic
  else .ok ⟨fromBytesBE ((data.drop 2).take 8),
            fromBytesBE (((data.drop 2).drop 8).take 8),
            (data.drop 2).drop 16⟩

/-- `UpdateResponse` (messages.go): tag 3, fields `Error` (`int16`, modelled
by its 16-bit pattern), `RequestID`, `Version`, data.  The struct declares
`Error` first; the wire order is `RequestID`, `Error`, `Version`. -/
structure UpdateResponse where
  Error : Nat
  RequestID : Nat
  Version : Nat
  Data : List Nat
deriving DecidableEq

/-- `UpdateResponse.Encode`: tag 3, `RequestID:u64`, `Error:u16`,
`Version:u64`, data. -/
def UpdateResponse.Encode (r : UpdateResponse) : List Nat :=
  toBytesBE 2 3 ++ toBytesBE 8 r.RequestID ++ toBytesBE 2 r.Error ++
    toBytesBE 8 r.Version ++ r.Data

/-- `UpdateResponse.Decode`: `body[:8]` needs 10 bytes total, `body[8:10]`
needs 12, `body[10:18]` needs 20. -/
def UpdateResponse.Decode (data : List Nat) : GoResult UpdateResponse :=
  if data.length < 2 then .panic
  else if messageTypeOf data ≠ 3 then .error
  else if data.length < 10 then .panic
  else if data.length < 12 then .panic
  else if data.length < 20 then .panic
  else .ok ⟨fromBytesBE (((data.drop 2).drop 8).take 2),
            fromBytesBE ((data.drop 2).take 8),
            fromBytesBE (((data.drop 2).drop 10).take 8),
            (data.drop 2).drop 18⟩

/-- `VersionUpdateMessage` (messages.go): tag 4, `Version` and data. -/
structure VersionUpdateMessage where
  Version : Nat
  Data : List Nat
deriving DecidableEq

/-- `VersionUpdateMessage.Encode`: tag 4, `Version:u64`, data. -/
def VersionUpdateMessage.Encode (m : VersionUpdateMessage) : List Nat :=
  toBytesBE 2 4 ++ toBytesBE 8 m.Version ++ m.Data

/-- `VersionUpdateMessage.Decode`: `body[:8]` needs 10 bytes total. -/
def VersionUpdateMessage.Decode (data : List Nat) : GoResult VersionUpdateMessage :=
  if data.length < 2 then .panic
  else if messageTypeOf data ≠ 4 then .error
  else if data.length < 10 then .panic
  else .ok ⟨fromBytesBE ((data.drop 2).take 8), (data.drop 2).drop 8⟩

theorem messageTypeOf_append (a b : List Nat) (t : Nat) (ha : a = toBytesBE 2 t)
    (ht : t < 256 ^ 2) : messageTypeOf (a ++ b) = t := by
  have h2 : a.length = 2 := by rw [ha]; exact toBytesBE_length 2 t
  rw [messageTypeOf, ← h2, List.take_left, ha, fromBytesBE_toBytesBE_of_lt _ _ ht]

theorem drop_append_of_length (a b : List Nat) (n : Nat) (h : a.length = n) :
    (a ++ b).drop n = b := by
  rw [← h, List.drop_left]

theorem take_append_of_length (a b : List Nat) (n : Nat) (h : a.length = n) :
    (a ++ b).take n = a := by
  rw [← h, List.take_left]

theorem UpdateRequest.decode_encode_request (r : UpdateRequest)
    (h1 : r.RequestID < U64) (h2 : r.Version < U64) :
    UpdateRequest.Decode r.Encode = .ok r := by
  have h64 : (256 : Nat) ^ 8 = U64 := by decide
  have hlen : r.Encode.length = 18 + r.Data.length := by
    simp [UpdateRequest.Encode, toBytesBE_length]
    omega
  have htag : messageTypeOf r.Encode = 2 := by
    rw [UpdateRequest.Encode, List.append_assoc, List.append_assoc]
    exact messageTypeOf_append _ _ 2 rfl (by decide)
  have hbody : r.Encode.drop 2 =
      toBytesBE 8 r.RequestID ++ (toBytesBE 8 r.Version ++ r.Data) := by
    rw [UpdateRequest.Encode, List.append_assoc, List.append_assoc]
    exact drop_append_of_length _ _ 2 (toBytesBE_length 2 2)
  have hf1 : (r.Encode.drop 2).take 8 = toBytesBE 8 r.RequestID := by
    rw [hbody]; exact take_append_of_length _ _ 8 (toBytesBE_length 8 _)
  have hrest : (r.Encode.drop 2).drop 8 = toBytesBE 8 r.Version ++ r.Data := by
    rw [hbody]; exact drop_append_of_length _ _ 8 (toBytesBE_length 8 _)
  have hf2 : ((r.Encode.drop 2).drop 8).take 8 = toBytesBE 8 r.Version := by
    rw [hrest]; exact take_append_of_length _ _ 8 (toBytesBE_length 8 _)
  have hdata : (r.Encode.drop 2).drop 16 = r.Data := by
    have : r.Encode.drop 2 =
        (toBytesBE 8 r.RequestID ++ toBytesBE 8 r.Version) ++ r.Data := by
      rw [hbody, List.append_assoc]
    rw [this]
    exact drop_append_of_length _ _ 16 (by simp [toBytesBE_length])
  rw [UpdateRequest.Decode, if_neg (by omega), if_neg (by rw [htag]; omega),
    if_neg (by omega), if_neg (by omega), hf1, hf2, hdata,
    fromBytesBE_toBytesBE_of_lt _ _ (by rw [h64]; exact h1),
    fromBytesBE_toBytesBE_of_lt _ _ (by rw [h64]; exact h2)]

theorem UpdateResponse.decode_encode_response (s : UpdateResponse)
    (h1 : s.RequestID < U64) (h2 : s.Error < 2 ^ 16) (h3 : s.Version < U64) :
    UpdateResponse.Decode s.Encode = .ok s := by
  have h64 : (256 : Nat) ^ 8 = U64 := by decide
  have h16 : (256 : Nat) ^ 2 = 2 ^ 16 := by decide
  have hlen : s.Encode.length = 20 + s.Data.length := by
    simp [UpdateResponse.Encode, toBytesBE_length]
    omega
  have htag : messageTypeOf s.Encode = 3 := by
    rw [UpdateResponse.Encode, List.append_assoc, List.append_assoc,
      List.append_assoc]
    exact messageTypeOf_append _ _ 3 rfl (by decide)
  have hbody : s.Encode.drop 2 =
      toBytesBE 8 s.RequestID ++ (toBytesBE 2 s.Error ++
        (toBytesBE 8 s.Version ++ s.Data)) := by
    rw [UpdateResponse.Encode, List.append_assoc, List.append_assoc,
      List.append_assoc]
    exact drop_append_of_length _ _ 2 (toBytesBE_length 2 3)
  have hf1 : (s.Encode.drop 2).take 8 = toBytesBE 8 s.RequestID := by
    rw [hbody]; exact take_append_of_length _ _ 8 (toBytesBE_length 8 _)
  have hrest8 : (s.Encode.drop 2).drop 8 =
      toBytesBE 2 s.Error ++ (toBytesBE 8 s.Version ++ s.Data) := by
    rw [hbody]; exact drop_append_of_length _ _ 8 (toBytesBE_length 8 _)
  have hf2 : ((s.Encode.drop 2).drop 8).take 2 = toBytesBE 2 s.Error := by
    rw [hrest8]; exact take_append_of_length _ _ 2 (toBytesBE_length 2 _)
  have hrest10 : (s.Encode.drop 2).drop 10 = toBytesBE 8 s.Version ++ s.Data := by
    have : s.Encode.drop 2 =
        (toBytesBE 8 s.RequestID ++ toBytesBE 2 s.Error) ++
          (toBytesBE 8 s.Version ++ s.Data) := by
      rw [hbody, List.append_assoc]
    rw [this]
    exact drop_append_of_length _ _ 10 (by simp [toBytesBE_length])
  have hf3 : ((s.Encode.drop 2).drop 10).take 8 = toBytesBE 8 s.Version := by
    rw [hrest10]; exact take_append_of_length _ _ 8 (toBytesBE_length 8 _)
  have hdata : (s.Encode.drop 2).drop 18 = s.Data := by
    have : s.Encode.drop 2 =
        ((toBytesBE 8 s.RequestID ++ toBytesBE 2 s.Error) ++
          toBytesBE 8 s.Version) ++ s.Data := by
      rw [hbody]; simp [List.append_assoc]
    rw [this]
    exact drop_append_of_length _ _ 18 (by simp [toBytesBE_length])
  rw [UpdateResponse.Decode, if_neg (by omega), if_neg (by rw [htag]; omega),
    if_neg (by omega), if_neg (by omega), if_neg (by omega), hf1, hf2, hf3,
    hdata, fromBytesBE_toBytesBE_of_lt _ _ (by rw [h16]; exact h2),
    fromBytesBE_toBytesBE_of_lt _ _ (by rw [h64]; exact h1),
    fromBytesBE_toBytesBE_of_lt _ _ (by rw [h64]; exact h3)]

theorem VersionUpdateMessage.decode_encode_update (u : VersionUpdateMessage)
    (h1 : u.Version < U64) :
    VersionUpdateMessage.Decode u.Encode = .ok u := by
  have h64 : (256 : Nat) ^ 8 = U64 := by decide
  have hlen : u.Encode.length = 10 + u.Data.length := by
    simp [VersionUpdateMessage.Encode, toBytesBE_length]
    omega
  have htag : messageTypeOf u.Encode = 4 := by
    rw [VersionUpdateMessage.Encode, List.append_assoc]
    exact messageTypeOf_append _ _ 4 rfl (by decide)
  have hbody : u.Encode.drop 2 = toBytesBE 8 u.Version ++ u.Data := by
    rw [VersionUpdateMessage.Encode, List.append_assoc]
    exact drop_append_of_length _ _ 2 (toBytesBE_length 2 4)
  have hf1 : (u.Encode.drop 2).take 8 = toBytesBE 8 u.Version := by
    rw [hbody]; exact take_append_of_length _ _ 8 (toBytesBE_length 8 _)
  have hdata : (u.Encode.drop 2).drop 8 = u.Data := by
    rw [hbody]; exact drop_append_of_length _ _ 8 (toBytesBE_length 8 _)
  rw [VersionUpdateMessage.Decode, if_neg (by omega),
    if_neg (by rw [htag]; omega), if_neg (by omega), hf1, hdata,
    fromBytesBE_toBytesBE_of_lt _ _ (by rw [h64]; exact h1)]

/-- Claim C2: each of the three message kinds round-trips through its codec,
and the encoded body is the 2-byte big-endian tag followed by the big-endian
fixed fields in the taxonomy order with the data bytes extending to the end
of the frame. -/
theorem claim_C2_codec_roundtrip
    (r : UpdateRequest) (s : UpdateResponse) (u : VersionUpdateMessage)
    (hr1 : r.RequestID < U64) (hr2 : r.Version < U64)
    (hs1 : s.RequestID < U64) (hs2 : s.Error < 2 ^ 16) (hs3 : s.Version < U64)
    (hu1 : u.Version < U64) :
    UpdateRequest.Decode r.Encode = .ok r ∧
    r.Encode = toBytesBE 2 2 ++ toBytesBE 8 r.RequestID ++
      toBytesBE 8 r.Version ++ r.Data ∧
    UpdateResponse.Decode s.Encode = .ok s ∧
    s.Encode = toBytesBE 2 3 ++ toBytesBE 8 s.RequestID ++
      toBytesBE 2 s.Error ++ toBytesBE 8 s.Version ++ s.Data ∧
    VersionUpdateMessage.Decode u.Encode = .ok u ∧
    u.Encode = toBytesBE 2 4 ++ toBytesBE 8 u.Version ++ u.Data :=
  ⟨UpdateRequest.decode_encode_request r hr1 hr2, rfl,
   UpdateResponse.decode_encode_response s hs1 hs2 hs3, rfl,
   VersionUpdateMessage.decode_encode_update u hu1, rfl⟩

/-- Witness for C2 at a concrete message of each kind. -/
theorem claim_C2_codec_roundtrip_witness :
    UpdateRequest.Decode (UpdateRequest.Encode ⟨1, 2, [7]⟩) = .ok ⟨1, 2, [7]⟩ ∧
    UpdateResponse.Decode (UpdateResponse.Encode ⟨0, 1, 2, [7]⟩) =
      .ok ⟨0, 1, 2, [7]⟩ ∧
    VersionUpdateMessage.Decode (VersionUpdateMessage.Encode ⟨2, [7]⟩) =
      .ok ⟨2, [7]⟩ := by
  have h := claim_C2_codec_roundtrip ⟨1, 2, [7]⟩ ⟨0, 1, 2, [7]⟩ ⟨2, [7]⟩
    (by decide) (by decide) (by decide) (by decide) (by decide) (by decide)
  exact ⟨h.1, h.2.2.1, h.2.2.2.2.1⟩

/-- Counterexample to C8: truncations of an encoded message are not rejected
with an error.  Cutting the 20-byte encoding of `UpdateRequest 1 1 [7, 8]` to
10 bytes makes the decoder panic (slice out of range at `body[8:16]`), and
cutting it to 19 bytes decodes successfully with the truncated data. -/
theorem claim_C8_counterexample :
    UpdateRequest.Decode ((UpdateRequest.Encode ⟨1, 1, [7, 8]⟩).take 10) =
      .panic ∧
    UpdateRequest.Decode ((UpdateRequest.Encode ⟨1, 1, [7, 8]⟩).take 19) =
      .ok ⟨1, 1, [7]⟩ := by decide

/-- Claim C8 as amended: a body of at least two bytes whose tag does not
match the parser is rejected with an error, but truncations are not rejected
with an error: a body shorter than two bytes or one whose matching tag is
followed by fewer bytes than the fixed fields panics (slice out of range),
and a body that retains the fixed fields decodes successfully, silently
keeping whatever data bytes remain. -/
theorem claim_C8_amended_decoder_totality (b : List Nat) :
    (b.length < 2 →
      UpdateRequest.Decode b = .panic ∧ UpdateResponse.Decode b = .panic ∧
        VersionUpdateMessage.Decode b = .panic) ∧
    (2 ≤ b.length →
      (messageTypeOf b ≠ 2 → UpdateRequest.Decode b = .error) ∧
      (messageTypeOf b ≠ 3 → UpdateResponse.Decode b = .error) ∧
      (messageTypeOf b ≠ 4 → VersionUpdateMessage.Decode b = .error) ∧
      (messageTypeOf b = 2 → b.length < 18 → UpdateRequest.Decode b = .panic) ∧
      (messageTypeOf b = 3 → b.length < 20 → UpdateResponse.Decode b = .panic) ∧
      (messageTypeOf b = 4 → b.length < 10 →
        VersionUpdateMessage.Decode b = .panic) ∧
      (messageTypeOf b = 2 → 18 ≤ b.length →
        UpdateRequest.Decode b = .ok ⟨fromBytesBE ((b.drop 2).take 8),
          fromBytesBE (((b.drop 2).drop 8).take 8), (b.drop 2).drop 16⟩) ∧
      (messageTypeOf b = 3 → 20 ≤ b.length →
        UpdateResponse.Decode b = .ok ⟨fromBytesBE (((b.drop 2).drop 8).take 2),
          fromBytesBE ((b.drop 2).take 8),
          fromBytesBE (((b.drop 2).drop 10).take 8), (b.drop 2).drop 18⟩) ∧
      (messageTypeOf b = 4 → 10 ≤ b.length →
        VersionUpdateMessage.Decode b =
          .ok ⟨fromBytesBE ((b.drop 2).take 8), (b.drop 2).drop 8⟩)) := by
  refine ⟨fun h => ⟨?_, ?_, ?_⟩, fun h => ?_⟩
  · rw [UpdateRequest.Decode, if_pos h]
  · rw [UpdateResponse.Decode, if_pos h]
  · rw [VersionUpdateMessage.Decode, if_pos h]
  refine ⟨fun ht => ?_, fun ht => ?_, fun ht => ?_, fun ht hl => ?_,
    fun ht hl => ?_, fun ht hl => ?_, fun ht hl => ?_, fun ht hl => ?_,
    fun ht hl => ?_⟩
  · rw [UpdateRequest.Decode, if_neg (by omega), if_pos ht]
  · rw [UpdateResponse.Decode, if_neg (by omega), if_pos ht]
  · rw [VersionUpdateMessage.Decode, if_neg (by omega), if_pos ht]
  · rw [UpdateRequest.Decode, if_neg (by omega), if_neg (by simp [ht])]
    by_cases h10 : b.length < 10
    · rw [if_pos h10]
    · rw [if_neg h10, if_pos hl]
  · rw [UpdateResponse.Decode, if_neg (by omega), if_neg (by simp [ht])]
    by_cases h10 : b.length < 10
    · rw [if_pos h10]
    · rw [if_neg h10]
      by_cases h12 : b.length < 12
      · rw [if_pos h12]
      · rw [if_neg h12, if_pos hl]
  · rw [VersionUpdateMessage.Decode, if_neg (by omega), if_neg (by simp [ht]),
      if_pos hl]
  · rw [UpdateRequest.Decode, if_neg (by omega), if_neg (by simp [ht]),
      if_neg (by omega), if_neg (by omega)]
  · rw [UpdateResponse.Decode, if_neg (by omega), if_neg (by simp [ht]),
      if_neg (by omega), if_neg (by omega), if_neg (by omega)]
  · rw [VersionUpdateMessage.Decode, if_neg (by omega), if_neg (by simp [ht]),
      if_neg (by omega)]

/-- Witness for the amended C8 at concrete bodies: a wrong tag is an error, a
short matching body panics, a long-enough body decodes. -/
theorem claim_C8_amended_decoder_totality_witness :
    UpdateRequest.Decode [0, 9, 0, 0] = .error ∧
    UpdateRequest.Decode [0, 2, 0, 0] = .panic ∧
    VersionUpdateMessage.Decode [0, 4, 0, 0, 0, 0, 0, 0, 0, 5, 7] =
      .ok ⟨5, [7]⟩ := by
  refine ⟨((claim_C8_amended_decoder_totality [0, 9, 0, 0]).2 (by decide)).1
      (by decide),
    ((claim_C8_amended_decoder_totality [0, 2, 0, 0]).2
      (by decide)).2.2.2.1 (by decide) (by decide), ?_⟩
  have h := ((claim_C8_amended_decoder_totality
      [0, 4, 0, 0, 0, 0, 0, 0, 0, 5, 7]).2 (by decide)).2.2.2.2.2.2.2.2
    (by decide) (by decide)
  rw [h]
  decide

/-- In-memory datastore state (memory/datastore.go): `Get` and `Put` always
succeed, returning and replacing the stored pair. -/
structure DS where
  version : Nat
  data : List Nat
deriving DecidableEq

/-- Leader node state relevant to the write path (leader.go): the datastore
and the keys of the client map.  Client ids are the uuid strings. -/
structure LeaderState where
  ds : DS
  clients : List String
deriving DecidableEq

/-- The only datastore error the in-memory model can surface from
`LeaderNode.write` is the version mismatch. -/
inductive LeaderWriteError where
  | versionMismatch
deriving DecidableEq

/-- `LeaderNode.write` (leader.go, lines 231-270): read the current version;
on mismatch return `(v, nil, ErrVersionMismatch)` unchanged; otherwise put
`(v + 1, data)`, broadcast a `VersionUpdate` frame to every client whose id
is not excluded, and return `(v + 1, data, nil)`.  The result is the returned
triple, the new state, and the list of `(client id, frame)` sends. -/
def LeaderNode.write (st : LeaderState) (version : Nat) (data : List Nat)
    (excludeClients : List String) :
    (Nat × Option (List Nat) × Option LeaderWriteError) ×
      LeaderState × List (String × List Nat) :=
  let v := st.ds.version
  if version ≠ v then
    ((v, none, some .versionMismatch), st, [])
  else
    let v' := (version + 1) % U64
    let st' : LeaderState := { st with ds := ⟨v', data⟩ }
    let msg := PrependRequestLength (VersionUpdateMessage.Encode ⟨v', data⟩)
    let sends :=
      if st.clients.length > 0 then
        (st.clients.filter (fun k => !excludeClients.contains k)).map
          (fun k => (k, msg))
      else []
    ((v', some data, none), st', sends)

/-- Repeated local writes on the leader handle (`Write` → `write` with no
exclusions), threading the state. -/
def LeaderNode.runWrites (st : LeaderState) : List (Nat × List Nat) → LeaderState
  | [] => st
  | (e, d) :: rest =>
      LeaderNode.runWrites (LeaderNode.write st e d []).2.1 rest

/-- Every write in the sequence was accepted (returned no error). -/
def LeaderNode.allAccepted (st : LeaderState) : List (Nat × List Nat) → Prop
  | [] => True
  | (e, d) :: rest =>
      (LeaderNode.write st e d []).1.2.2 = none ∧
        LeaderNode.allAccepted (LeaderNode.write st e d []).2.1 rest

theorem LeaderNode.write_accepted (st : LeaderState) (e : Nat) (d : List Nat)
    (excl : List String) (h : (LeaderNode.write st e d excl).1.2.2 = none) :
    e = st.ds.version := by
  by_contra hne
  rw [LeaderNode.write] at h
  simp only [if_pos hne] at h
  exact Option.noConfusion h

theorem LeaderNode.runWrites_version (st : LeaderState)
    (ws : List (Nat × List Nat)) (hacc : LeaderNode.allAccepted st ws)
    (hbound : st.ds.version + ws.length < U64) :
    (LeaderNode.runWrites st ws).ds.version = st.ds.version + ws.length := by
  induction ws generalizing st with
  | nil => simp [LeaderNode.runWrites]
  | cons w rest ih =>
    obtain ⟨e, d⟩ := w
    obtain ⟨h1, h2⟩ := hacc
    have he : e = st.ds.version := LeaderNode.write_accepted st e d [] h1
    have hst : (LeaderNode.write st e d []).2.1.ds.version =
        st.ds.version + 1 := by
      rw [LeaderNode.write]
      simp only [if_neg (by omega : ¬ e ≠ st.ds.version)]
      have : (e + 1) % U64 = st.ds.version + 1 := by
        rw [he, Nat.mod_eq_of_lt (by simp at hbound; omega)]
      simpa using this
    have := ih (LeaderNode.write st e d []).2.1 h2
      (by rw [hst]; simp at hbound ⊢; omega)
    rw [LeaderNode.runWrites, this, hst]
    simp
    omega

/-- Claim C1: the leader's internal `write` returns
`(v, nil, VersionMismatch)` and leaves the datastore unchanged when the
expected version differs from the current version `v`; when they agree it
puts `(v + 1, data)` and returns `(v + 1, data, ok)`; consequently a
sequence of `k` accepted writes starting at version `v0` leaves the
datastore at version `v0 + k`. -/
theorem claim_C1_leader_write (st : LeaderState) (version : Nat)
    (data : List Nat) (excl : List String) (ws : List (Nat × List Nat)) :
    (version ≠ st.ds.version →
      LeaderNode.write st version data excl =
        ((st.ds.version, none, some .versionMismatch), st, [])) ∧
    (version = st.ds.version → version + 1 < U64 →
      (LeaderNode.write st version data excl).1 =
        (version + 1, some data, none) ∧
      (LeaderNode.write st version data excl).2.1.ds = ⟨version + 1, data⟩) ∧
    (LeaderNode.allAccepted st ws → st.ds.version + ws.length < U64 →
      (LeaderNode.runWrites st ws).ds.version =
        st.ds.version + ws.length) := by
  refine ⟨fun hne => ?_, fun he hb => ?_,
    fun hacc hbound => LeaderNode.runWrites_version st ws hacc hbound⟩
  · rw [LeaderNode.write, if_pos hne]
  · rw [LeaderNode.write, if_neg (by omega : ¬ version ≠ st.ds.version)]
    constructor
    · simp [Nat.mod_eq_of_lt hb]
    · simp [Nat.mod_eq_of_lt hb]

/-- Witness for C1: a mismatching write is rejected unchanged, a matching
write advances the version, and two accepted writes advance it by two. -/
theorem claim_C1_leader_write_witness :
    LeaderNode.write ⟨⟨4, [1]⟩, []⟩ 9 [2] [] =
      ((4, none, some .versionMismatch), ⟨⟨4, [1]⟩, []⟩, []) ∧
    (LeaderNode.write ⟨⟨4, [1]⟩, []⟩ 4 [2] []).1 = (5, some [2], none) ∧
    (LeaderNode.runWrites ⟨⟨4, [1]⟩, []⟩ [(4, [2]), (5, [3])]).ds.version =
      6 := by
  have h := claim_C1_leader_write ⟨⟨4, [1]⟩, []⟩ 9 [2] [] [(4, [2]), (5, [3])]
  have h2 := claim_C1_leader_write ⟨⟨4, [1]⟩, []⟩ 4 [2] [] []
  refine ⟨h.1 (by decide), (h2.2.1 rfl (by decide)).1, ?_⟩
  have h3 := h.2.2 (by exact ⟨by decide, by decide, trivial⟩) (by decide)
  simpa using h3

theorem UpdateRequest.decode_ok_inv (b : List Nat) (r : UpdateRequest)
    (h : UpdateRequest.Decode b = .ok r) :
    18 ≤ b.length ∧ messageTypeOf b = 2 ∧
      r = ⟨fromBytesBE ((b.drop 2).take 8),
        fromBytesBE (((b.drop 2).drop 8).take 8), (b.drop 2).drop 16⟩ := by
  rw [UpdateRequest.Decode] at h
  split_ifs at h with h1 h2 h3 h4
  cases h
  exact ⟨by omega, not_not.mp h2, rfl⟩

/-- Concrete client ids used by witnesses. -/
def clientA : String := "a"

/-- A second concrete client id used by witnesses. -/
def clientB : String := "b"

/-- `LeaderNode.handleClientRequest` (leader.go, lines 183-229): switch on
the message type; for an `UpdateRequest`, decode, run the internal `write`
excluding the requesting client, build an `UpdateResponse` that reuses the
request id and carries the returned version and data, and send it to the
requesting client.  Frames with other tags are dropped.  In the in-memory
datastore model `Put` cannot fail, so the `ResponseErrorWriteFailed` branch
is unreachable and the error code is 0 on success and 1 on mismatch. -/
def LeaderNode.handleClientRequest (st : LeaderState) (clientID : String)
    (reqBody : List Nat) : GoResult (LeaderState × List (String × List Nat)) :=
  if reqBody.length < 2 then .panic
  else if messageTypeOf reqBody = 2 then
    match UpdateRequest.Decode reqBody with
    | .panic => .panic
    | .error => .ok (st, [])
    | .ok req =>
      let w := LeaderNode.write st req.Version req.Data [clientID]
      let errCode : Nat :=
        match w.1.2.2 with
        | none => 0
        | some .versionMismatch => 1
      let res : UpdateResponse :=
        ⟨errCode, req.RequestID, w.1.1, (w.1.2.1).getD []⟩
      .ok (w.2.1, w.2.2 ++ [(clientID, PrependRequestLength res.Encode)])
  else .ok (st, [])

theorem LeaderNode.write_accept (st : LeaderState) (data : List Nat)
    (excl : List String) (hb : st.ds.version + 1 < U64) :
    LeaderNode.write st st.ds.version data excl =
      ((st.ds.version + 1, some data, none),
        { st with ds := ⟨st.ds.version + 1, data⟩ },
        if st.clients.length > 0 then
          (st.clients.filter (fun k => !excl.contains k)).map
            (fun k => (k, PrependRequestLength
              (VersionUpdateMessage.Encode ⟨st.ds.version + 1, data⟩)))
        else []) := by
  rw [LeaderNode.write, if_neg (by omega : ¬ st.ds.version ≠ st.ds.version)]
  simp [Nat.mod_eq_of_lt hb]

/-- Claim C3: when the leader accepts an `UpdateRequest` of client `c`, the
`VersionUpdate` with version = previous version + 1 is sent to every client
in the client map except `c`, `c` does not receive that `VersionUpdate`, and
`c` receives the `UpdateResponse` carrying its request id. -/
theorem claim_C3_broadcast_exclusion (st : LeaderState) (c : String)
    (reqBody : List Nat) (req : UpdateRequest)
    (hdec : UpdateRequest.Decode reqBody = .ok req)
    (hacc : req.Version = st.ds.version)
    (hb : st.ds.version + 1 < U64) :
    ∃ sends,
      LeaderNode.handleClientRequest st c reqBody =
        .ok ({ st with ds := ⟨st.ds.version + 1, req.Data⟩ }, sends) ∧
      (∀ k ∈ st.clients, k ≠ c →
        (k, PrependRequestLength
          (VersionUpdateMessage.Encode ⟨st.ds.version + 1, req.Data⟩)) ∈
            sends) ∧
      (c, PrependRequestLength
        (VersionUpdateMessage.Encode ⟨st.ds.version + 1, req.Data⟩)) ∉
          sends ∧
      (c, PrependRequestLength
        (UpdateResponse.Encode ⟨0, req.RequestID, st.ds.version + 1,
          req.Data⟩)) ∈ sends := by
  obtain ⟨hlen, htag, hreq⟩ := UpdateRequest.decode_ok_inv reqBody req hdec
  have hw := LeaderNode.write_accept st req.Data [c] hb
  refine ⟨(if st.clients.length > 0 then
      (st.clients.filter (fun k => !([c].contains k))).map
        (fun k => (k, PrependRequestLength
          (VersionUpdateMessage.Encode ⟨st.ds.version + 1, req.Data⟩)))
    else []) ++ [(c, PrependRequestLength
      (UpdateResponse.Encode ⟨0, req.RequestID, st.ds.version + 1,
        req.Data⟩))], ?_, ?_, ?_, ?_⟩
  · rw [LeaderNode.handleClientRequest, if_neg (by omega), if_pos htag, hdec]
    simp only [hacc, hw]
    simp
  · intro k hk hkc
    have hpos : st.clients.length > 0 := List.length_pos.mpr
      (List.ne_nil_of_mem hk)
    rw [if_pos hpos]
    refine List.mem_append_left _ (List.mem_map.mpr ⟨k, ?_, rfl⟩)
    refine List.mem_filter.mpr ⟨hk, ?_⟩
    simp [List.contains, hkc]
  · intro hmem
    rcases List.mem_append.mp hmem with hmem | hmem
    · by_cases hpos : st.clients.length > 0
      · rw [if_pos hpos] at hmem
        obtain ⟨k, hkf, hke⟩ := List.mem_map.mp hmem
        have hkc : k = c := (Prod.mk.injEq _ _ _ _).mp hke |>.1
        have := (List.mem_filter.mp hkf).2
        rw [hkc] at this
        simp [List.contains] at this
      · rw [if_neg hpos] at hmem
        cases hmem
    · have hne : PrependRequestLength
          (VersionUpdateMessage.Encode ⟨st.ds.version + 1, req.Data⟩) ≠
          PrependRequestLength
            (UpdateResponse.Encode ⟨0, req.RequestID, st.ds.version + 1,
              req.Data⟩) := by
        intro h
        have := congrArg List.length h
        simp [PrependRequestLength, VersionUpdateMessage.Encode,
          UpdateResponse.Encode, toBytesBE_length] at this
        omega
      rcases List.mem_singleton.mp hmem with h
      exact hne ((Prod.mk.injEq _ _ _ _).mp h).2
  · exact List.mem_append_right _ (List.mem_singleton.mpr rfl)

/-- Witness for C3: a two-client leader at version 0 accepting client A's
request sends the broadcast to client B and not to client A. -/
theorem claim_C3_broadcast_exclusion_witness :
    ∃ sends,
      LeaderNode.handleClientRequest ⟨⟨0, []⟩, [clientA, clientB]⟩ clientA
          (UpdateRequest.Encode ⟨9, 0, [1]⟩) =
        .ok (⟨⟨1, [1]⟩, [clientA, clientB]⟩, sends) ∧
      (clientB, PrependRequestLength
        (VersionUpdateMessage.Encode ⟨1, [1]⟩)) ∈ sends ∧
      (clientA, PrependRequestLength
        (VersionUpdateMessage.Encode ⟨1, [1]⟩)) ∉ sends ∧
      (clientA, PrependRequestLength
        (UpdateResponse.Encode ⟨0, 9, 1, [1]⟩)) ∈ sends := by
  obtain ⟨sends, h1, h2, h3, h4⟩ := claim_C3_broadcast_exclusion
    ⟨⟨0, []⟩, [clientA, clientB]⟩ clientA (UpdateRequest.Encode ⟨9, 0, [1]⟩)
    ⟨9, 0, [1]⟩ (by decide) rfl (by decide)
  exact ⟨sends, h1, h2 clientB (by decide) (by decide), h3, h4⟩

/-- Follower node state relevant to the write path (part_000): the local
mirror datastore, the registered request-id slots (map keys), and
`nextRequestID`. -/
structure FollowerState where
  ds : DS
  requests : List Nat
  nextRequestID : Nat
deriving DecidableEq

/-- Observable step of the follower's write path. -/
inductive FEvent where
  | send (bytes : List Nat)
  | register (id : Nat)
deriving DecidableEq

/-- Errors `FollowerNode.Write` can return. -/
inductive FollowerWriteError where
  | versionMismatch
  | leaderFailedToWrite
  | unknown (code : Nat)
deriving DecidableEq

/-- `FollowerNode.Write` (part_000, lines 122-166): local version pre-check;
then encode `UpdateRequest(nextRequestID, version, data)`, write the framed
request to the connection, and only afterwards register the response slot
and advance `nextRequestID` — the trace records these two effects in program
order.  `res` is the response later delivered on the slot; its error code is
translated to the caller's result, with code 0 also putting
`(res.Version, data)` into the local datastore. -/
def FollowerNode.Write (st : FollowerState) (version : Nat) (data : List Nat)
    (res : UpdateResponse) :
    Option FollowerWriteError × FollowerState × List FEvent :=
  let v := st.ds.version
  if version ≠ v then (some .versionMismatch, st, [])
  else
    let ur : UpdateRequest := ⟨st.nextRequestID, version, data⟩
    let req := PrependRequestLength ur.Encode
    let events := [FEvent.send req, FEvent.register st.nextRequestID]
    let st1 : FollowerState :=
      { st with requests := st.requests ++ [st.nextRequestID],
                nextRequestID := (st.nextRequestID + 1) % U64 }
    if res.Error = 0 then
      (none, { st1 with ds := ⟨res.Version, data⟩ }, events)
    else if res.Error = 1 then (some .versionMismatch, st1, events)
    else if res.Error = 2 then (some .leaderFailedToWrite, st1, events)
    else (some (.unknown res.Error), st1, events)

/-- Claim C4: the follower's write returns `VersionMismatch` without sending
anything when the expected version differs from the local version, and
otherwise translates the response: code 0 puts `(res.Version, data)` locally
and succeeds, code 1 maps to `VersionMismatch`, code 2 to
`LeaderFailedToWrite`, and any other code to a generic failure. -/
theorem claim_C4_follower_write_translation (st : FollowerState)
    (version : Nat) (data : List Nat) (res : UpdateResponse) :
    (version ≠ st.ds.version →
      FollowerNode.Write st version data res =
        (some .versionMismatch, st, [])) ∧
    (version = st.ds.version →
      (res.Error = 0 → (FollowerNode.Write st version data res).1 = none ∧
        (FollowerNode.Write st version data res).2.1.ds =
          ⟨res.Version, data⟩) ∧
      (res.Error = 1 → (FollowerNode.Write st version data res).1 =
        some .versionMismatch) ∧
      (res.Error = 2 → (FollowerNode.Write st version data res).1 =
        some .leaderFailedToWrite) ∧
      (res.Error ≠ 0 → res.Error ≠ 1 → res.Error ≠ 2 →
        (FollowerNode.Write st version data res).1 =
          some (.unknown res.Error))) := by
  refine ⟨fun hne => by rw [FollowerNode.Write, if_pos hne], fun he => ?_⟩
  refine ⟨fun h0 => ?_, fun h1 => ?_, fun h2 => ?_, fun h0 h1 h2 => ?_⟩
  · rw [FollowerNode.Write, if_neg (by omega)]
    simp [h0]
  · rw [FollowerNode.Write, if_neg (by omega)]
    simp [h1]
  · rw [FollowerNode.Write, if_neg (by omega)]
    simp [h2]
  · rw [FollowerNode.Write, if_neg (by omega)]
    simp [h0, h1, h2]

/-- Witness for C4 at concrete inputs: a mismatching expected version is
rejected locally, and response codes 0 and 2 translate as stated. -/
theorem claim_C4_follower_write_translation_witness :
    FollowerNode.Write ⟨⟨1, [5]⟩, [], 1⟩ 3 [6] ⟨0, 1, 2, [6]⟩ =
      (some .versionMismatch, ⟨⟨1, [5]⟩, [], 1⟩, []) ∧
    (FollowerNode.Write ⟨⟨1, [5]⟩, [], 1⟩ 1 [6] ⟨0, 1, 2, [6]⟩).1 = none ∧
    (FollowerNode.Write ⟨⟨1, [5]⟩, [], 1⟩ 1 [6] ⟨0, 1, 2, [6]⟩).2.1.ds =
      ⟨2, [6]⟩ ∧
    (FollowerNode.Write ⟨⟨1, [5]⟩, [], 1⟩ 1 [6] ⟨2, 1, 1, []⟩).1 =
      some .leaderFailedToWrite := by
  have h1 := claim_C4_follower_write_translation ⟨⟨1, [5]⟩, [], 1⟩ 3 [6]
    ⟨0, 1, 2, [6]⟩
  have h2 := claim_C4_follower_write_translation ⟨⟨1, [5]⟩, [], 1⟩ 1 [6]
    ⟨0, 1, 2, [6]⟩
  have h3 := claim_C4_follower_write_translation ⟨⟨1, [5]⟩, [], 1⟩ 1 [6]
    ⟨2, 1, 1, []⟩
  exact ⟨h1.1 (by decide), ((h2.2 rfl).1 rfl).1, ((h2.2 rfl).1 rfl).2,
    (h3.2 rfl).2.2.1 rfl⟩

/-- Claim C5, evaluated at the failing input: for a bootstrapped follower at
local version 1 writing `[6]`, the write path emits the framed
`UpdateRequest` on the connection first and registers the response slot for
request id 1 only afterwards — so there is a moment after the bytes are on
the wire with no slot for the id, contrary to the claim. -/
theorem claim_C5_send_precedes_register :
    (FollowerNode.Write ⟨⟨1, [5]⟩, [], 1⟩ 1 [6] ⟨0, 1, 2, [6]⟩).2.2 =
      [FEvent.send (PrependRequestLength (UpdateRequest.Encode ⟨1, 1, [6]⟩)),
       FEvent.register 1] := by decide

namespace Appendonly

/-- Header field sizes (appendonly/datastore.go). -/
def FileVersionHeaderFieldSize : Nat := 2

/-- Size of the Offset header field. -/
def OffsetHeaderFieldSize : Nat := 8

/-- Size of the NextOffset header field. -/
def NextOffsetHeaderFieldSize : Nat := 8

/-- Size of the Version header field. -/
def VersionHeaderFieldSize : Nat := 8

/-- Position of the FileVersion header field. -/
def FileVersionHeaderPos : Nat := 0

/-- Position of the Offset header field. -/
def OffsetHeaderPos : Nat := FileVersionHeaderPos + FileVersionHeaderFieldSize

/-- Position of the NextOffset header field. -/
def NextOffsetHeaderPos : Nat := OffsetHeaderPos + OffsetHeaderFieldSize

/-- Position of the Version header field. -/
def VersionHeaderPos : Nat := NextOffsetHeaderPos + NextOffsetHeaderFieldSize

/-- `headerOffset()`: total header size, 26 bytes. -/
def headerOffset : Nat := FileVersionHeaderFieldSize + OffsetHeaderFieldSize +
  NextOffsetHeaderFieldSize + VersionHeaderFieldSize

/-- Errors of the append-only datastore; `shortRead` stands for the wrapped
generic read failures of `Get`. -/
inductive AOError where
  | fileNotOpen
  | unexpectedFileVersion
  | offsetOutOfRange
  | nextOffsetOutOfRange
  | shortRead
deriving DecidableEq

/-- In-memory state of the append-only `Datastore` struct: whether the file
handle is held, and the `fileVersion`, `offset` and `nextOffset` fields.
The file contents are threaded separately as a byte list. -/
structure Datastore where
  isOpen : Bool
  fileVersion : Nat
  offset : Nat
  nextOffset : Nat
deriving DecidableEq

/-- `NewDatastore`: closed handle, supported file version 1. -/
def NewDatastore : Datastore := ⟨false, 1, 0, 0⟩

/-- A `k`-byte big-endian header read at `pos`.  `os.File.Read` into a
zeroed `k`-byte buffer returns the available bytes and leaves the rest zero;
the read helpers additionally map a read at end-of-file to the value 0,
which coincides with decoding an all-zero buffer. -/
def readFieldBE (file : List Nat) (pos k : Nat) : Nat :=
  fromBytesBE ((file.drop pos).take k ++
    List.replicate (k - ((file.drop pos).take k).length) 0)

/-- Go int64 conversion of a `uint64` value: two's complement
reinterpretation. -/
def toInt64 (n : Nat) : Int :=
  if n < 2 ^ 63 then (n : Int) else (n : Int) - 2 ^ 64

/-- `Datastore.Open`: no-op when already open; otherwise open (creating an
absent file, which behaves as the empty byte list), return immediately for
an empty file, and for a non-empty file validate `FileVersion = 1`, then
`Offset ≤ NextOffset` (unsigned), then `int64(Offset) ≤ size` — the source
compares `int64(aof.offset) > info.Size()`, a signed comparison. -/
def Datastore.Open (aof : Datastore) (file : List Nat) :
    Except AOError Datastore :=
  if aof.isOpen then .ok aof
  else if file.length = 0 then .ok { aof with isOpen := true }
  else if readFieldBE file FileVersionHeaderPos FileVersionHeaderFieldSize ≠
      aof.fileVersion then .error .unexpectedFileVersion
  else if readFieldBE file OffsetHeaderPos OffsetHeaderFieldSize >
      readFieldBE file NextOffsetHeaderPos NextOffsetHeaderFieldSize then
    .error .nextOffsetOutOfRange
  else if toInt64 (readFieldBE file OffsetHeaderPos OffsetHeaderFieldSize) >
      (file.length : Int) then .error .offsetOutOfRange
  else .ok { aof with
    isOpen := true
    offset := readFieldBE file OffsetHeaderPos OffsetHeaderFieldSize
    nextOffset := readFieldBE file NextOffsetHeaderPos
      NextOffsetHeaderFieldSize }

/-- `Datastore.Close`: no-op when not open, otherwise release the handle;
the header fields are not reset. -/
def Datastore.Close (aof : Datastore) : Except AOError Datastore :=
  if aof.isOpen = false then .ok aof
  else .ok { aof with isOpen := false }

/-- `Datastore.Get`: require an open handle; read the logical version from
the header, then `NextOffset − Offset` bytes at `headerOffset + Offset`;
fewer available bytes are a short-read error. -/
def Datastore.Get (aof : Datastore) (file : List Nat) :
    Except AOError (Nat × List Nat) :=
  if aof.isOpen = false then .error .fileNotOpen
  else if (file.drop (headerOffset + aof.offset)).length <
      aof.nextOffset - aof.offset then .error .shortRead
  else .ok (readFieldBE file VersionHeaderPos VersionHeaderFieldSize,
    (file.drop (headerOffset + aof.offset)).take
      (aof.nextOffset - aof.offset))

/-- Overwrite `file` starting at `pos` with `bs`; a position past the end
zero-fills the gap, as writing after a seek past end-of-file does. -/
def writeAt (file : List Nat) (pos : Nat) (bs : List Nat) : List Nat :=
  (file.take pos ++ List.replicate (pos - file.length) 0) ++ bs ++
    file.drop (pos + bs.length)

/-- `writeHeaders`: rewrite the 26-byte header block at position 0 with the
current field values and the given logical version. -/
def Datastore.writeHeaders (aof : Datastore) (file : List Nat)
    (version : Nat) : Except AOError (List Nat) :=
  if aof.isOpen = false then .error .fileNotOpen
  else .ok (writeAt file 0
    (toBytesBE FileVersionHeaderFieldSize aof.fileVersion ++
     toBytesBE OffsetHeaderFieldSize aof.offset ++
     toBytesBE NextOffsetHeaderFieldSize aof.nextOffset ++
     toBytesBE VersionHeaderFieldSize version))

/-- `Datastore.Put`: require an open handle; write `data` at
`headerOffset + NextOffset`, advance `Offset := NextOffset` and
`NextOffset := NextOffset + len(data)` (`uint64` arithmetic), then rewrite
the header block with the updated fields. -/
def Datastore.Put (aof : Datastore) (file : List Nat) (version : Nat)
    (data : List Nat) : Except AOError (Datastore × List Nat) :=
  if aof.isOpen = false then .error .fileNotOpen
  else
    match Datastore.writeHeaders
        { aof with
          offset := aof.nextOffset
          nextOffset := (aof.nextOffset + data.length) % U64 }
        (writeAt file (headerOffset + aof.nextOffset) data) version with
    | .error e => .error e
    | .ok file2 =>
      .ok ({ aof with
        offset := aof.nextOffset
        nextOffset := (aof.nextOffset + data.length) % U64 }, file2)

/-- The open → put → put → close → open → get pipeline of the round-trip
property, also returning the reopened data region and offset header. -/
def roundTrip (v1 v2 : Nat) (d1 d2 : List Nat) :
    Except AOError ((Nat × List Nat) × List Nat × Nat) :=
  match Datastore.Open NewDatastore [] with
  | .error e => .error e
  | .ok a1 =>
    match Datastore.Put a1 [] v1 d1 with
    | .error e => .error e
    | .ok (a2, f1) =>
      match Datastore.Put a2 f1 v2 d2 with
      | .error e => .error e
      | .ok (a3, f2) =>
        match Datastore.Close a3 with
        | .error e => .error e
        | .ok a4 =>
          match Datastore.Open a4 f2 with
          | .error e => .error e
          | .ok a5 =>
            match Datastore.Get a5 f2 with
            | .error e => .error e
            | .ok vd => .ok (vd, f2.drop headerOffset, a5.offset)

theorem writeAt_nil (pos : Nat) (bs : List Nat) :
    writeAt [] pos bs = List.replicate pos 0 ++ bs := by
  simp [writeAt]

theorem writeAt_zero (file bs : List Nat) :
    writeAt file 0 bs = bs ++ file.drop bs.length := by
  simp [writeAt]

theorem writeAt_at_end (file bs : List Nat) (pos : Nat)
    (h : file.length = pos) :
    writeAt file pos bs = file ++ bs := by
  rw [writeAt, ← h]
  simp [List.take_length, List.drop_eq_nil_of_le (by omega : file.length ≤
    file.length + bs.length)]

theorem readFieldBE_append (pre mid post : List Nat) (pos k : Nat)
    (hpre : pre.length = pos) (hmid : mid.length = k) :
    readFieldBE (pre ++ (mid ++ post)) pos k = fromBytesBE mid := by
  rw [readFieldBE, drop_append_of_length pre _ pos hpre,
    take_append_of_length mid post k hmid, hmid]
  simp

theorem readFieldBE_zero (mid post : List Nat) (k : Nat)
    (hmid : mid.length = k) :
    readFieldBE (mid ++ post) 0 k = fromBytesBE mid := by
  rw [readFieldBE]
  simp only [List.drop_zero]
  rw [take_append_of_length mid post k hmid, hmid]
  simp

/-- Claim C6, evaluated at the failing input: a 26-byte file with
FileVersion 1 and Offset = NextOffset = 2 ^ 63.  The Offset header (2 ^ 63)
exceeds the file size (26), yet `Open` succeeds, because the source compares
`int64(aof.offset) > info.Size()` and the conversion of 2 ^ 63 to `int64` is
negative — contradicting the claim and the code's own comment that the
offset cannot exceed the file size. -/
theorem claim_C6_open_validation_eval :
    (toBytesBE 2 1 ++ toBytesBE 8 (2 ^ 63) ++ toBytesBE 8 (2 ^ 63) ++
        toBytesBE 8 0).length = 26 ∧
    readFieldBE (toBytesBE 2 1 ++ toBytesBE 8 (2 ^ 63) ++
        toBytesBE 8 (2 ^ 63) ++ toBytesBE 8 0) OffsetHeaderPos
      OffsetHeaderFieldSize = 2 ^ 63 ∧
    Datastore.Open NewDatastore (toBytesBE 2 1 ++ toBytesBE 8 (2 ^ 63) ++
        toBytesBE 8 (2 ^ 63) ++ toBytesBE 8 0) =
      .ok ⟨true, 1, 2 ^ 63, 2 ^ 63⟩ :=
  ⟨rfl, rfl, rfl⟩

/-- Claim C10: `Open` on an already-open store returns ok immediately with
the state (and therefore the header fields) unchanged, `Close` on a store
that is not open returns ok unchanged, and after any successful `Close`
both `Get` and `Put` fail with `FileNotOpen`. -/
theorem claim_C10_open_close_idempotent (aof : Datastore) (file : List Nat)
    (v : Nat) (d : List Nat) :
    (aof.isOpen = true → Datastore.Open aof file = .ok aof) ∧
    (aof.isOpen = false → Datastore.Close aof = .ok aof) ∧
    (∀ a2, Datastore.Close aof = .ok a2 →
      Datastore.Get a2 file = .error .fileNotOpen ∧
      Datastore.Put a2 file v d = .error .fileNotOpen) := by
  refine ⟨fun h => by rw [Datastore.Open, if_pos h],
    fun h => by rw [Datastore.Close, if_pos h], fun a2 h2 => ?_⟩
  have hclosed : a2.isOpen = false := by
    by_cases h : aof.isOpen = false
    · rw [Datastore.Close, if_pos h] at h2
      cases h2
      exact h
    · rw [Datastore.Close, if_neg h] at h2
      cases h2
      rfl
  exact ⟨by rw [Datastore.Get, if_pos hclosed],
    by rw [Datastore.Put, if_pos hclosed]⟩

/-- Witness for C10: a concrete open store is re-opened as a no-op, a
concrete closed store closes as a no-op, and `Get`/`Put` after `Close` fail
with `FileNotOpen`. -/
theorem claim_C10_open_close_idempotent_witness :
    Datastore.Open ⟨true, 1, 2, 3⟩ [9] = .ok ⟨true, 1, 2, 3⟩ ∧
    Datastore.Close ⟨false, 1, 2, 3⟩ = .ok ⟨false, 1, 2, 3⟩ ∧
    Datastore.Get ⟨false, 1, 2, 3⟩ [9] = .error .fileNotOpen ∧
    Datastore.Put ⟨false, 1, 2, 3⟩ [9] 7 [8] = .error .fileNotOpen := by
  have h1 := claim_C10_open_close_idempotent ⟨true, 1, 2, 3⟩ [9] 7 [8]
  have h2 := claim_C10_open_close_idempotent ⟨false, 1, 2, 3⟩ [9] 7 [8]
  have h3 := (h2.2.2 ⟨false, 1, 2, 3⟩ (h2.2.1 rfl))
  exact ⟨h1.1 rfl, h2.2.1 rfl, h3.1, h3.2⟩

/-- Claim C7: starting from an absent (empty) store file,
open → put(v1, d1) → put(v2, d2) → close → open → get returns `(v2, d2)`;
the reopened data region still holds `d1 ++ d2`, with the Offset header at
`d1.length`, so the first value's bytes remain resident but unreferenced. -/
theorem claim_C7_roundtrip (v1 v2 : Nat) (d1 d2 : List Nat)
    (hv2 : v2 < U64) (hlen : d1.length + d2.length < 2 ^ 63) :
    roundTrip v1 v2 d1 d2 = .ok ((v2, d2), d1 ++ d2, d1.length) := by
  have hU : (2 : Nat) ^ 63 < U64 := by rw [U64]; norm_num
  have h256 : (256 : Nat) ^ 8 = U64 := by norm_num [U64]
  have hho : headerOffset = 26 := rfl
  have hS2 : FileVersionHeaderFieldSize = 2 := rfl
  have hS8o : OffsetHeaderFieldSize = 8 := rfl
  have hS8n : NextOffsetHeaderFieldSize = 8 := rfl
  have hS8v : VersionHeaderFieldSize = 8 := rfl
  have hP0 : FileVersionHeaderPos = 0 := rfl
  have hP2 : OffsetHeaderPos = 2 := rfl
  have hP10 : NextOffsetHeaderPos = 10 := rfl
  have hP18 : VersionHeaderPos = 18 := rfl
  have hmod1 : (0 + d1.length) % U64 = d1.length := by
    rw [Nat.zero_add, Nat.mod_eq_of_lt (by omega)]
  have hmod2 : (d1.length + d2.length) % U64 = d1.length + d2.length := by
    rw [Nat.mod_eq_of_lt (by omega)]
  have hA : Datastore.Open NewDatastore [] = .ok ⟨true, 1, 0, 0⟩ := rfl
  have hdrop1 : (List.replicate 26 (0 : Nat) ++ d1).drop
      (toBytesBE 2 1 ++ toBytesBE 8 0 ++ toBytesBE 8 d1.length ++
        toBytesBE 8 v1).length = d1 := by
    rw [show (toBytesBE 2 1 ++ toBytesBE 8 0 ++ toBytesBE 8 d1.length ++
      toBytesBE 8 v1).length = 26 by simp [toBytesBE_length]]
    exact drop_append_of_length _ _ 26 (by simp)
  have hB : Datastore.Put ⟨true, 1, 0, 0⟩ [] v1 d1 =
      .ok (⟨true, 1, 0, d1.length⟩,
        (toBytesBE 2 1 ++ toBytesBE 8 0 ++ toBytesBE 8 d1.length ++
          toBytesBE 8 v1) ++ d1) := by
    simp only [Datastore.Put, Datastore.writeHeaders, hS2, hS8o, hS8n, hS8v,
      hho, hmod1, writeAt_nil, writeAt_zero, hdrop1]
    simp [hdrop1]
  have hf1len : ((toBytesBE 2 1 ++ toBytesBE 8 0 ++ toBytesBE 8 d1.length ++
      toBytesBE 8 v1) ++ d1).length = 26 + d1.length := by
    simp [toBytesBE_length]
    omega
  have hdrop2 : (((toBytesBE 2 1 ++ toBytesBE 8 0 ++
      toBytesBE 8 d1.length ++ toBytesBE 8 v1) ++ d1) ++ d2).drop
      (toBytesBE 2 1 ++ toBytesBE 8 d1.length ++
        toBytesBE 8 (d1.length + d2.length) ++ toBytesBE 8 v2).length =
      d1 ++ d2 := by
    rw [show (toBytesBE 2 1 ++ toBytesBE 8 d1.length ++
      toBytesBE 8 (d1.length + d2.length) ++ toBytesBE 8 v2).length = 26
      by simp [toBytesBE_length]]
    rw [List.append_assoc]
    exact drop_append_of_length _ _ 26 (by simp [toBytesBE_length])
  have hC : Datastore.Put ⟨true, 1, 0, d1.length⟩
      ((toBytesBE 2 1 ++ toBytesBE 8 0 ++ toBytesBE 8 d1.length ++
        toBytesBE 8 v1) ++ d1) v2 d2 =
      .ok (⟨true, 1, d1.length, d1.length + d2.length⟩,
        (toBytesBE 2 1 ++ toBytesBE 8 d1.length ++
          toBytesBE 8 (d1.length + d2.length) ++ toBytesBE 8 v2) ++
          (d1 ++ d2)) := by
    simp only [Datastore.Put, Datastore.writeHeaders, hS2, hS8o, hS8n, hS8v,
      hho, hmod2, writeAt_at_end _ d2 _ hf1len, writeAt_zero, hdrop2]
    simp [hdrop2]
  have hD : Datastore.Close ⟨true, 1, d1.length, d1.length + d2.length⟩ =
      .ok ⟨false, 1, d1.length, d1.length + d2.length⟩ := rfl
  have hshape2 : (toBytesBE 2 1 ++ toBytesBE 8 d1.length ++
      toBytesBE 8 (d1.length + d2.length) ++ toBytesBE 8 v2) ++ (d1 ++ d2) =
      toBytesBE 2 1 ++ (toBytesBE 8 d1.length ++
        (toBytesBE 8 (d1.length + d2.length) ++ (toBytesBE 8 v2 ++
          (d1 ++ d2)))) := by
    simp [List.append_assoc]
  have hshape10 : (toBytesBE 2 1 ++ toBytesBE 8 d1.length ++
      toBytesBE 8 (d1.length + d2.length) ++ toBytesBE 8 v2) ++ (d1 ++ d2) =
      (toBytesBE 2 1 ++ toBytesBE 8 d1.length) ++
        (toBytesBE 8 (d1.length + d2.length) ++ (toBytesBE 8 v2 ++
          (d1 ++ d2))) := by
    simp [List.append_assoc]
  have hshape18 : (toBytesBE 2 1 ++ toBytesBE 8 d1.length ++
      toBytesBE 8 (d1.length + d2.length) ++ toBytesBE 8 v2) ++ (d1 ++ d2) =
      (toBytesBE 2 1 ++ toBytesBE 8 d1.length ++
        toBytesBE 8 (d1.length + d2.length)) ++
        (toBytesBE 8 v2 ++ (d1 ++ d2)) := by
    simp [List.append_assoc]
  have hfv : readFieldBE ((toBytesBE 2 1 ++ toBytesBE 8 d1.length ++
      toBytesBE 8 (d1.length + d2.length) ++ toBytesBE 8 v2) ++ (d1 ++ d2))
      FileVersionHeaderPos FileVersionHeaderFieldSize = 1 := by
    rw [hP0, hS2, hshape2, readFieldBE_zero _ _ _ (toBytesBE_length 2 1)]
    norm_num [fromBytesBE_toBytesBE]
  have hoff : readFieldBE ((toBytesBE 2 1 ++ toBytesBE 8 d1.length ++
      toBytesBE 8 (d1.length + d2.length) ++ toBytesBE 8 v2) ++ (d1 ++ d2))
      OffsetHeaderPos OffsetHeaderFieldSize = d1.length := by
    rw [hP2, hS8o, hshape2, readFieldBE_append (toBytesBE 2 1) _ _ 2 8
      (toBytesBE_length 2 1) (toBytesBE_length 8 _),
      fromBytesBE_toBytesBE_of_lt _ _ (by rw [h256]; omega)]
  have hnoff : readFieldBE ((toBytesBE 2 1 ++ toBytesBE 8 d1.length ++
      toBytesBE 8 (d1.length + d2.length) ++ toBytesBE 8 v2) ++ (d1 ++ d2))
      NextOffsetHeaderPos NextOffsetHeaderFieldSize =
      d1.length + d2.length := by
    rw [hP10, hS8n, hshape10, readFieldBE_append _ _ _ 10 8
      (by simp [toBytesBE_length]) (toBytesBE_length 8 _),
      fromBytesBE_toBytesBE_of_lt _ _ (by rw [h256]; omega)]
  have hver : readFieldBE ((toBytesBE 2 1 ++ toBytesBE 8 d1.length ++
      toBytesBE 8 (d1.length + d2.length) ++ toBytesBE 8 v2) ++ (d1 ++ d2))
      VersionHeaderPos VersionHeaderFieldSize = v2 := by
    rw [hP18, hS8v, hshape18, readFieldBE_append _ _ _ 18 8
      (by simp [toBytesBE_length]) (toBytesBE_length 8 _),
      fromBytesBE_toBytesBE_of_lt _ _ (by rw [h256]; omega)]
  have hsz : ((toBytesBE 2 1 ++ toBytesBE 8 d1.length ++
      toBytesBE 8 (d1.length + d2.length) ++ toBytesBE 8 v2) ++
      (d1 ++ d2)).length = 26 + (d1.length + d2.length) := by
    simp [toBytesBE_length]
    omega
  have hE : Datastore.Open ⟨false, 1, d1.length, d1.length + d2.length⟩
      ((toBytesBE 2 1 ++ toBytesBE 8 d1.length ++
        toBytesBE 8 (d1.length + d2.length) ++ toBytesBE 8 v2) ++
        (d1 ++ d2)) =
      .ok ⟨true, 1, d1.length, d1.length + d2.length⟩ := by
    rw [Datastore.Open, if_neg (by simp), if_neg (by omega), hfv,
      if_neg (by simp), hoff, hnoff, if_neg (by omega), if_neg ?hcmp]
    case hcmp =>
      rw [toInt64, if_pos (by omega : d1.length < 2 ^ 63), hsz]
      push_cast
      omega
  have hdropGet : (((toBytesBE 2 1 ++ toBytesBE 8 d1.length ++
      toBytesBE 8 (d1.length + d2.length) ++ toBytesBE 8 v2) ++
      (d1 ++ d2))).drop (headerOffset + d1.length) = d2 := by
    rw [show (toBytesBE 2 1 ++ toBytesBE 8 d1.length ++
        toBytesBE 8 (d1.length + d2.length) ++ toBytesBE 8 v2) ++
        (d1 ++ d2) =
        ((toBytesBE 2 1 ++ toBytesBE 8 d1.length ++
          toBytesBE 8 (d1.length + d2.length) ++ toBytesBE 8 v2) ++ d1) ++
          d2 by simp [List.append_assoc]]
    exact drop_append_of_length _ _ _ (by simp [toBytesBE_length, hho]; omega)
  have hF : Datastore.Get ⟨true, 1, d1.length, d1.length + d2.length⟩
      ((toBytesBE 2 1 ++ toBytesBE 8 d1.length ++
        toBytesBE 8 (d1.length + d2.length) ++ toBytesBE 8 v2) ++
        (d1 ++ d2)) = .ok (v2, d2) := by
    simp only [Datastore.Get]
    rw [if_neg (by simp), if_neg ?hp, hver, hdropGet,
      show d1.length + d2.length - d1.length = d2.length by omega,
      List.take_length]
    case hp =>
      rw [hdropGet]
      omega
  have hdropHdr : (((toBytesBE 2 1 ++ toBytesBE 8 d1.length ++
      toBytesBE 8 (d1.length + d2.length) ++ toBytesBE 8 v2) ++
      (d1 ++ d2))).drop headerOffset = d1 ++ d2 :=
    drop_append_of_length _ _ _ (by simp [toBytesBE_length, hho])
  simp only [roundTrip, hA, hB, hC, hD, hE, hF, hdropHdr]

/-- Witness for C7 at concrete versions and values. -/
theorem claim_C7_roundtrip_witness :
    roundTrip 3 5 [97] [98, 99] = .ok ((5, [98, 99]), [97, 98, 99], 1) := by
  have h := claim_C7_roundtrip 3 5 [97] [98, 99] (by norm_num [U64])
    (by norm_num)
  simpa using h

end Appendonly

/-- State of an endpoint path on the filesystem, as `os.Stat` distinguishes
it in `fileExists` (utils.go): absent, a regular file, or a directory. -/
inductive PathState where
  | absent
  | regularFile
  | directory
deriving DecidableEq

/-- Error returned by the `fileExists` check. -/
inductive FileExistsError where
  | pathIsDirectory
deriving DecidableEq

/-- `fileExists` (utils.go): absent paths report false, directories report
an error ("path is a directory"), regular files report true. -/
def fileExists : PathState → Except FileExistsError Bool
  | .absent => .ok false
  | .directory => .error .pathIsDirectory
  | .regularFile => .ok true

/-- Errors of `NewLeaderNode` construction. -/
inductive LeaderConstructionError where
  | leaderAlreadyExists
  | checkFailed (e : FileExistsError)
deriving DecidableEq

/-- Side effects `NewLeaderNode` performs after the existence check. -/
inductive LeaderSetupAction where
  | openDatastore
  | bindListener
  | spawnAcceptLoop
  | spawnSyncRequests
deriving DecidableEq

/-- `NewLeaderNode` (leader.go, lines 35-66), up to the effects it runs: a
failing `fileExists` check propagates as a wrapped error; an existing entry
yields `ErrLeaderAlreadyExists`; otherwise it opens the datastore, binds the
listener, and spawns the accept loop and the request serializer, in that
order. -/
def NewLeaderNode (ps : PathState) :
    Except LeaderConstructionError Unit × List LeaderSetupAction :=
  match fileExists ps with
  | .error e => (.error (.checkFailed e), [])
  | .ok true => (.error .leaderAlreadyExists, [])
  | .ok false => (.ok (), [.openDatastore, .bindListener, .spawnAcceptLoop,
      .spawnSyncRequests])

/-- Claim C9: an existing regular file at the endpoint path makes
`NewLeaderNode` fail with `LeaderAlreadyExists` before opening the datastore
or binding a listener; a directory fails with the distinct configuration
error, not `LeaderAlreadyExists`. -/
theorem claim_C9_leader_mutual_exclusion (ps : PathState) :
    (ps = .regularFile →
      NewLeaderNode ps = (.error .leaderAlreadyExists, []) ∧
      LeaderSetupAction.openDatastore ∉ (NewLeaderNode ps).2 ∧
      LeaderSetupAction.bindListener ∉ (NewLeaderNode ps).2) ∧
    (ps = .directory →
      (NewLeaderNode ps).1 =
        .error (.checkFailed .pathIsDirectory) ∧
      (NewLeaderNode ps).1 ≠ .error .leaderAlreadyExists) := by
  constructor
  · rintro rfl
    refine ⟨rfl, ?_, ?_⟩ <;> simp [NewLeaderNode, fileExists]
  · rintro rfl
    exact ⟨rfl, by simp [NewLeaderNode, fileExists]⟩

/-- Witness for C9 at the two concrete path states. -/
theorem claim_C9_leader_mutual_exclusion_witness :
    NewLeaderNode .regularFile = (.error .leaderAlreadyExists, []) ∧
    (NewLeaderNode .directory).1 =
      .error (.checkFailed .pathIsDirectory) := by
  exact ⟨((claim_C9_leader_mutual_exclusion .regularFile).1 rfl).1,
    ((claim_C9_leader_mutual_exclusion .directory).2 rfl).1⟩

end Interstate
